import Mathlib

/-!
Shallow embedding of the logtide/logward Go SDK delivery pipeline:
the circuit breaker (`circuit_breaker.go`), the retrying executor and
backoff calculator (`retry.go`), the batch accumulator (`batch.go`) and
the client's `sendBatch` flush function (`client.go`).

Wall-clock instants are modelled as integers (`time.Since t = now - t`);
each operation that reads the clock takes the current instant as an
explicit argument.  Log records are modelled by opaque numeric
identifiers: none of the verified properties inspects record fields.
-/

/-! ## Circuit breaker (`circuit_breaker.go`) -/

/-- CircuitState: the three states of the breaker. `CircuitClosed` means
requests are allowed through, `CircuitOpen` means they are blocked,
`CircuitHalfOpen` means the breaker is probing recovery. -/
inductive CircuitState where
  | closed
  | opened
  | halfOpen
deriving DecidableEq, Repr

/-- CircuitBreaker state: configuration (`failureThreshold`, `timeout`)
plus the mutable fields guarded by the mutex in the Go code. -/
structure CircuitBreaker where
  failureThreshold : Nat
  timeout : Int
  state : CircuitState
  failures : Nat
  lastFailureTime : Int
  lastStateChange : Int
deriving DecidableEq, Repr

/-- NewCircuitBreaker: starts closed with failure count 0 (Go zero value)
and `lastStateChange` stamped with the construction instant. -/
def NewCircuitBreaker (failureThreshold : Nat) (timeout : Int) (now : Int) :
    CircuitBreaker :=
  { failureThreshold := failureThreshold
    timeout := timeout
    state := CircuitState.closed
    failures := 0
    lastFailureTime := 0
    lastStateChange := now }

/-- Result of `CircuitBreaker.Allow`: `nil` error or `ErrCircuitOpen`. -/
inductive AllowResult where
  | ok
  | circuitOpen
deriving DecidableEq, Repr

/-- Allow checks if a request is allowed: when the state is open and the
timeout has elapsed since the last state change it transitions to
half-open (lazily, as a side effect of the check) and succeeds; when the
timeout has not elapsed it returns `ErrCircuitOpen`; otherwise it
succeeds with no state change. -/
def CircuitBreaker.Allow (cb : CircuitBreaker) (now : Int) :
    AllowResult × CircuitBreaker :=
  if cb.state = CircuitState.opened then
    if now - cb.lastStateChange ≥ cb.timeout then
      (AllowResult.ok,
        { cb with state := CircuitState.halfOpen, lastStateChange := now })
    else
      (AllowResult.circuitOpen, cb)
  else
    (AllowResult.ok, cb)

/-- RecordSuccess resets the failure count and, if the breaker was
half-open, transitions it to closed. -/
def CircuitBreaker.RecordSuccess (cb : CircuitBreaker) (now : Int) :
    CircuitBreaker :=
  let cb := { cb with failures := 0 }
  if cb.state = CircuitState.halfOpen then
    { cb with state := CircuitState.closed, lastStateChange := now }
  else
    cb

/-- RecordFailure increments the failure count and stamps
`lastFailureTime`; a single failure in half-open trips the circuit, and
otherwise reaching the failure threshold trips it.  Each trip stamps
`lastStateChange`. -/
def CircuitBreaker.RecordFailure (cb : CircuitBreaker) (now : Int) :
    CircuitBreaker :=
  let cb := { cb with failures := cb.failures + 1, lastFailureTime := now }
  if cb.state = CircuitState.halfOpen then
    { cb with state := CircuitState.opened, lastStateChange := now }
  else if cb.failures ≥ cb.failureThreshold then
    { cb with state := CircuitState.opened, lastStateChange := now }
  else
    cb

/-- Reset returns the breaker to the closed state with failure count 0. -/
def CircuitBreaker.Reset (cb : CircuitBreaker) (now : Int) : CircuitBreaker :=
  { cb with
    state := CircuitState.closed
    failures := 0
    lastStateChange := now }

/-- One locked breaker operation together with the instant at which it
runs; used to reason about arbitrary operation sequences. -/
inductive BreakerOp where
  | allow (now : Int)
  | recordSuccess (now : Int)
  | recordFailure (now : Int)
  | reset (now : Int)
deriving DecidableEq, Repr

/-- Apply one breaker operation to the breaker state (for `allow`, keep
the state component of the result). -/
def applyBreakerOp (cb : CircuitBreaker) : BreakerOp → CircuitBreaker
  | BreakerOp.allow now => (cb.Allow now).2
  | BreakerOp.recordSuccess now => cb.RecordSuccess now
  | BreakerOp.recordFailure now => cb.RecordFailure now
  | BreakerOp.reset now => cb.Reset now

/-- Fold `RecordFailure` over a list of call instants: `ts.length`
consecutive failures with no intervening success. -/
def recordFailures (cb : CircuitBreaker) (ts : List Int) : CircuitBreaker :=
  ts.foldl CircuitBreaker.RecordFailure cb

/-! ## Retrying executor (`retry.go`) -/

/-- One outcome of the injected delivery function, following the net/http
contract used by `httpClient.Post`: either a response was obtained (with
a status code, `err = nil`) or a transport-level failure occurred
(`resp = nil`, `err ≠ nil`). -/
inductive HttpResult where
  | resp (status : Nat)
  | networkErr
deriving DecidableEq, Repr

/-- shouldRetry: retry on any transport error, and on the transient
status codes 429, 500, 502, 503, 504; all other outcomes are terminal. -/
def shouldRetry : HttpResult → Bool
  | HttpResult.networkErr => true
  | HttpResult.resp status =>
      status == 429 || status == 500 || status == 502 ||
        status == 503 || status == 504

/-- What `withRetry` hands back to its caller: the status of the returned
response (`none` for a nil response), whether the returned error is the
wrapped "max retries exceeded" error, and how many times the delivery
function was invoked. -/
structure RetryResult where
  resp : Option Nat
  wrappedErr : Bool
  calls : Nat
deriving DecidableEq, Repr

/-- The retry loop of `withRetry`, one recursive step per loop iteration.
`attempt` is the zero-based loop counter and `fuel = MaxRetries - attempt`
counts the iterations left, so `fuel = 0` exactly when
`attempt == config.MaxRetries`.  The inter-attempt backoff wait and
context cancellation are timing behaviour with no effect on the sequence
of attempts, and are elided from this pure model. -/
def withRetryLoop (fn : Nat → HttpResult) (attempt fuel : Nat) : RetryResult :=
  if shouldRetry (fn attempt) = false then
    match fn attempt with
    | HttpResult.resp s => ⟨some s, false, attempt + 1⟩
    | HttpResult.networkErr => ⟨none, false, attempt + 1⟩
  else
    match fuel with
    | 0 =>
      match fn attempt with
      | HttpResult.networkErr => ⟨none, true, attempt + 1⟩
      | HttpResult.resp s => ⟨some s, false, attempt + 1⟩
    | fuel' + 1 => withRetryLoop fn (attempt + 1) fuel'

/-- withRetry executes the delivery function up to `maxRetries + 1`
times.  `fn i` is the outcome of the delivery function on its `i`-th
invocation (zero-based). -/
def withRetry (maxRetries : Nat) (fn : Nat → HttpResult) : RetryResult :=
  withRetryLoop fn 0 maxRetries

/-! ## Backoff calculator (`retry.go`, `calculateBackoff`)

The Go code computes in `float64`; the arithmetic is modelled exactly
over the rationals.  `rand.Float64()` is modelled by the explicit draw
`jitterDraw ∈ [0, 1]`. -/

/-- calculateBackoff: exponential backoff `MinBackoff * 2 ^ attempt`,
capped at `MaxBackoff`, plus additive jitter
`jitterDraw * 0.25 * cappedValue`. -/
def calculateBackoff (attempt : Nat) (minBackoff maxBackoff : ℚ)
    (jitterDraw : ℚ) : ℚ :=
  let backoff := minBackoff * 2 ^ attempt
  let backoff := if backoff > maxBackoff then maxBackoff else backoff
  let jitter := jitterDraw * (1 / 4) * backoff
  backoff + jitter

/-! ## Batch accumulator (`batch.go`)

The batcher's mutex serializes every buffer mutation, so a concurrent
execution is an arbitrary interleaving of the atomic critical sections.
A `Batcher` value is the lock-protected state plus three history
("ghost") fields that record what happened: `inflight` holds batches
that have been detached by the locked half of `Flush` but not yet handed
to the flush function (the hand-off runs outside the lock), `delivered`
records every batch handed to the flush function, in order, and
`submitted` records every record accepted by `Add`. -/

/-- Batcher state.  `logs` is the current buffer, `flushPending` models
the one-slot `flushChan` signal channel, `stopped` the closed flag. -/
structure Batcher where
  logs : List Nat
  maxSize : Nat
  flushPending : Bool
  stopped : Bool
  inflight : List (List Nat)
  delivered : List (List Nat)
  submitted : List Nat
deriving DecidableEq, Repr

/-- A fresh batcher: empty buffer, not stopped, no signal pending. -/
def initBatcher (maxSize : Nat) : Batcher :=
  { logs := []
    maxSize := maxSize
    flushPending := false
    stopped := false
    inflight := []
    delivered := []
    submitted := [] }

/-- Add: fails with `ErrClientClosed` when stopped (returning `false`
and leaving the state unchanged); otherwise appends the record and, when
the buffer has reached `maxSize`, performs the non-blocking send on the
signal channel (a no-op when a signal is already pending).  The second
component is `true` exactly when Add returns a nil error. -/
def Batcher.Add (b : Batcher) (l : Nat) : Batcher × Bool :=
  if b.stopped then
    (b, false)
  else
    let logs := b.logs ++ [l]
    let pending := if logs.length ≥ b.maxSize then true else b.flushPending
    ({ b with
        logs := logs
        flushPending := pending
        submitted := b.submitted ++ [l] }, true)

/-- Result of one synchronous `Flush` call: the state afterwards, the
batch handed to the flush function (`none` when it was not invoked), and
whether Flush returned a nil error. -/
structure FlushOutcome where
  state : Batcher
  invoked : Option (List Nat)
  ok : Bool
deriving DecidableEq, Repr

/-- Flush: under the lock, an empty buffer is a successful no-op that
does not invoke the flush function; otherwise the buffer is detached
(copied out and reset to empty) and, outside the lock, handed to the
flush function, whose result (`f batch = true` for a nil error) becomes
Flush's result.  The detached batch is recorded in `delivered`. -/
def Batcher.Flush (f : List Nat → Bool) (b : Batcher) : FlushOutcome :=
  if b.logs = [] then
    ⟨b, none, true⟩
  else
    let batch := b.logs
    ⟨{ b with logs := [], delivered := b.delivered ++ [batch] },
      some batch, f batch⟩

/-- One atomic step of a concurrent execution over the batcher.  `add`
is a producer's `Add` critical section; `detach` is the locked half of a
`Flush` call (empty check and buffer swap), which parks the detached
batch in `inflight`; `deliver` is the out-of-lock hand-off of one
in-flight batch to the flush function; `consumeSignal` is the background
flusher receiving from the signal channel; `stop` marks the batcher
stopped (`Stop` then performs a final detach and deliver). -/
inductive BatcherOp where
  | add (l : Nat)
  | detach
  | deliver (batch : List Nat)
  | consumeSignal
  | stop
deriving DecidableEq, Repr

/-- Apply one atomic step.  A `deliver` of a batch that is not in flight
is a no-op (the scheduler can only hand off batches that were actually
detached). -/
def batcherStep (b : Batcher) : BatcherOp → Batcher
  | BatcherOp.add l => (b.Add l).1
  | BatcherOp.detach =>
      if b.logs = [] then b
      else { b with logs := [], inflight := b.inflight ++ [b.logs] }
  | BatcherOp.deliver batch =>
      if batch ∈ b.inflight then
        { b with
            inflight := b.inflight.erase batch
            delivered := b.delivered ++ [batch] }
      else b
  | BatcherOp.consumeSignal => { b with flushPending := false }
  | BatcherOp.stop => { b with stopped := true }

/-- Run an interleaving of atomic steps. -/
def batcherRun (b : Batcher) (ops : List BatcherOp) : Batcher :=
  ops.foldl batcherStep b

/-- All records handed to the flush function, across all flushes, in
order. -/
def flushedLogs (b : Batcher) : List Nat :=
  b.delivered.flatten

/-- The multiset of records currently anywhere in the pipeline: buffered,
detached-but-not-yet-handed-off, or already handed to the flush
function. -/
def batchContents (b : Batcher) : Multiset Nat :=
  (b.logs : Multiset Nat) + (b.inflight.flatten : Multiset Nat) +
    (b.delivered.flatten : Multiset Nat)

/-! ## Client flush function (`client.go`, `sendBatch`) -/

/-- validateBatch on a batch of opaque record identifiers: at least one
log and at most 1000.  (The per-record field validation of `validateLog`
is vacuous here because records are opaque identifiers; `sendBatch` is
only analysed on batches of already-validated records.) -/
def validateBatchOk (logs : List Nat) : Bool :=
  if logs.length = 0 then false
  else if logs.length > 1000 then false
  else true

/-- The error value returned by one `sendBatch` call. -/
inductive SendResult where
  | invalidBatch
  | circuitOpen
  | sendFailed
  | httpError (status : Nat)
  | ok
deriving DecidableEq, Repr

/-- What one `sendBatch` call produced: its returned error, the breaker
state afterwards, and how many times the delivery function was
invoked. -/
structure SendBatchResult where
  result : SendResult
  breaker : CircuitBreaker
  deliveryCalls : Nat
deriving DecidableEq, Repr

/-- sendBatch: validate the batch; consult `circuitBreaker.Allow`;
deliver with `withRetry`; record exactly one breaker outcome —
`RecordFailure` when the executor returned a non-nil error or a response
with status ≥ 500, `RecordSuccess` otherwise; then map the executor's
result to the returned error (wrapped send failure, non-2xx
`HTTPError`, or nil).  Response-body decoding is external glue modelled
as succeeding. -/
def sendBatch (cb : CircuitBreaker) (now : Int) (maxRetries : Nat)
    (fn : Nat → HttpResult) (logs : List Nat) : SendBatchResult :=
  if validateBatchOk logs = false then
    ⟨SendResult.invalidBatch, cb, 0⟩
  else
    match cb.Allow now with
    | (AllowResult.circuitOpen, cb1) => ⟨SendResult.circuitOpen, cb1, 0⟩
    | (AllowResult.ok, cb1) =>
      let r := withRetry maxRetries fn
      let failed :=
        r.wrappedErr ||
          (match r.resp with
            | some s => decide (s ≥ 500)
            | none => false)
      let cb2 :=
        if failed then cb1.RecordFailure now else cb1.RecordSuccess now
      if r.wrappedErr then
        ⟨SendResult.sendFailed, cb2, r.calls⟩
      else
        match r.resp with
        | some s =>
          if s < 200 ∨ s ≥ 300 then
            ⟨SendResult.httpError s, cb2, r.calls⟩
          else
            ⟨SendResult.ok, cb2, r.calls⟩
        | none => ⟨SendResult.sendFailed, cb2, r.calls⟩
/-! ## Breaker lemmas -/

lemma recordFailure_closed_fields (cb : CircuitBreaker) (now : Int)
    (hs : cb.state = CircuitState.closed)
    (hlt : cb.failures + 1 < cb.failureThreshold) :
    (cb.RecordFailure now).state = CircuitState.closed ∧
    (cb.RecordFailure now).failures = cb.failures + 1 ∧
    (cb.RecordFailure now).failureThreshold = cb.failureThreshold ∧
    (cb.RecordFailure now).timeout = cb.timeout := by
  unfold CircuitBreaker.RecordFailure
  rw [if_neg (by show ¬cb.state = CircuitState.halfOpen; simp [hs]),
    if_neg (by show ¬cb.failureThreshold ≤ cb.failures + 1; omega)]
  exact ⟨hs, rfl, rfl, rfl⟩

lemma recordFailure_closed_trips (cb : CircuitBreaker) (now : Int)
    (hs : cb.state = CircuitState.closed)
    (hge : cb.failureThreshold ≤ cb.failures + 1) :
    (cb.RecordFailure now).state = CircuitState.opened ∧
    (cb.RecordFailure now).failures = cb.failures + 1 ∧
    (cb.RecordFailure now).failureThreshold = cb.failureThreshold ∧
    (cb.RecordFailure now).timeout = cb.timeout ∧
    (cb.RecordFailure now).lastStateChange = now := by
  unfold CircuitBreaker.RecordFailure
  rw [if_neg (by show ¬cb.state = CircuitState.halfOpen; simp [hs]),
    if_pos hge]
  exact ⟨rfl, rfl, rfl, rfl, rfl⟩

lemma recordFailures_closed_of_lt (ts : List Int) :
    ∀ cb : CircuitBreaker, cb.state = CircuitState.closed →
      cb.failures + ts.length < cb.failureThreshold →
      (recordFailures cb ts).state = CircuitState.closed ∧
      (recordFailures cb ts).failures = cb.failures + ts.length ∧
      (recordFailures cb ts).failureThreshold = cb.failureThreshold ∧
      (recordFailures cb ts).timeout = cb.timeout := by
  induction ts with
  | nil =>
    intro cb hs _
    exact ⟨hs, by simp [recordFailures], rfl, rfl⟩
  | cons t ts ih =>
    intro cb hs hlt
    simp only [List.length_cons] at hlt
    obtain ⟨f1, f2, f3, f4⟩ := recordFailure_closed_fields cb t hs (by omega)
    obtain ⟨c1, c2, c3, c4⟩ := ih (cb.RecordFailure t) f1 (by rw [f2, f3]; omega)
    refine ⟨c1, ?_, ?_, ?_⟩
    · show (recordFailures (cb.RecordFailure t) ts).failures = cb.failures + (ts.length + 1)
      rw [c2, f2]
      omega
    · show (recordFailures (cb.RecordFailure t) ts).failureThreshold = cb.failureThreshold
      rw [c3, f3]
    · show (recordFailures (cb.RecordFailure t) ts).timeout = cb.timeout
      rw [c4, f4]

lemma recordFailures_opens (ts : List Int) :
    ∀ cb : CircuitBreaker, cb.state = CircuitState.closed →
      ts ≠ [] →
      cb.failures + ts.length = cb.failureThreshold →
      (recordFailures cb ts).state = CircuitState.opened ∧
      (recordFailures cb ts).failures = cb.failureThreshold ∧
      (recordFailures cb ts).failureThreshold = cb.failureThreshold ∧
      (recordFailures cb ts).timeout = cb.timeout := by
  induction ts with
  | nil => intro _ _ hne _; exact absurd rfl hne
  | cons t ts ih =>
    intro cb hs _ hlen
    simp only [List.length_cons] at hlen
    by_cases hts : ts = []
    · subst hts
      simp only [List.length_nil, Nat.zero_add] at hlen
      obtain ⟨g1, g2, g3, g4, _⟩ := recordFailure_closed_trips cb t hs (by omega)
      refine ⟨g1, ?_, g3, g4⟩
      show (cb.RecordFailure t).failures = cb.failureThreshold
      rw [g2]
      omega
    · have hpos : 0 < ts.length := List.length_pos.mpr hts
      obtain ⟨f1, f2, f3, f4⟩ := recordFailure_closed_fields cb t hs (by omega)
      obtain ⟨c1, c2, c3, c4⟩ := ih (cb.RecordFailure t) f1 hts (by rw [f2, f3]; omega)
      rw [f3] at c2 c3
      rw [f4] at c4
      exact ⟨c1, c2, c3, c4⟩

lemma allow_open_early (cb : CircuitBreaker) (now : Int)
    (hs : cb.state = CircuitState.opened)
    (hlt : now - cb.lastStateChange < cb.timeout) :
    cb.Allow now = (AllowResult.circuitOpen, cb) := by
  unfold CircuitBreaker.Allow
  rw [if_pos hs, if_neg (by omega)]

lemma allow_open_elapsed (cb : CircuitBreaker) (now : Int)
    (hs : cb.state = CircuitState.opened)
    (hge : cb.timeout ≤ now - cb.lastStateChange) :
    cb.Allow now =
      (AllowResult.ok,
        { cb with state := CircuitState.halfOpen, lastStateChange := now }) := by
  unfold CircuitBreaker.Allow
  rw [if_pos hs, if_pos (by omega)]

lemma recordFailure_halfOpen (cb : CircuitBreaker) (now : Int)
    (hs : cb.state = CircuitState.halfOpen) :
    cb.RecordFailure now =
      { cb with
          failures := cb.failures + 1
          lastFailureTime := now
          state := CircuitState.opened
          lastStateChange := now } := by
  unfold CircuitBreaker.RecordFailure
  rw [if_pos (by show cb.state = CircuitState.halfOpen; exact hs)]

lemma recordSuccess_halfOpen (cb : CircuitBreaker) (now : Int)
    (hs : cb.state = CircuitState.halfOpen) :
    cb.RecordSuccess now =
      { cb with
          failures := 0
          state := CircuitState.closed
          lastStateChange := now } := by
  unfold CircuitBreaker.RecordSuccess
  rw [if_pos (by show cb.state = CircuitState.halfOpen; exact hs)]
/-- C2: starting closed with failure counter 0, exactly `failureThreshold`
consecutive `RecordFailure` calls (at arbitrary instants `ts`) open the
breaker; every `Allow` before the open-duration has elapsed returns
`CircuitOpen` and changes nothing; the first `Allow` at or after the
duration succeeds and leaves the state half-open with the transition time
restamped; from half-open a single `RecordFailure` re-opens the breaker
restamping the transition time, and a single `RecordSuccess` closes it
and resets the failure counter to 0. -/
theorem C2_breaker_state_machine (cb0 : CircuitBreaker) (ts : List Int)
    (h0 : cb0.state = CircuitState.closed) (hf : cb0.failures = 0)
    (ht : 0 < cb0.failureThreshold) (hlen : ts.length = cb0.failureThreshold) :
    (recordFailures cb0 ts).state = CircuitState.opened ∧
    (∀ now : Int, now - (recordFailures cb0 ts).lastStateChange < cb0.timeout →
      (recordFailures cb0 ts).Allow now =
        (AllowResult.circuitOpen, recordFailures cb0 ts)) ∧
    (∀ now : Int, cb0.timeout ≤ now - (recordFailures cb0 ts).lastStateChange →
      ((recordFailures cb0 ts).Allow now).1 = AllowResult.ok ∧
      ((recordFailures cb0 ts).Allow now).2.state = CircuitState.halfOpen ∧
      ((recordFailures cb0 ts).Allow now).2.lastStateChange = now) ∧
    (∀ (cb : CircuitBreaker) (now : Int), cb.state = CircuitState.halfOpen →
      (cb.RecordFailure now).state = CircuitState.opened ∧
      (cb.RecordFailure now).lastStateChange = now) ∧
    (∀ (cb : CircuitBreaker) (now : Int), cb.state = CircuitState.halfOpen →
      (cb.RecordSuccess now).state = CircuitState.closed ∧
      (cb.RecordSuccess now).failures = 0) := by
  have hne : ts ≠ [] := by
    intro h
    rw [h] at hlen
    simp only [List.length_nil] at hlen
    omega
  obtain ⟨hop, _, _, htimeout⟩ := recordFailures_opens ts cb0 h0 hne (by omega)
  refine ⟨hop, ?_, ?_, ?_, ?_⟩
  · intro now hlt
    exact allow_open_early _ now hop (by rw [htimeout]; exact hlt)
  · intro now hge
    rw [allow_open_elapsed _ now hop (by rw [htimeout]; exact hge)]
    exact ⟨rfl, rfl, rfl⟩
  · intro cb now hs
    rw [recordFailure_halfOpen cb now hs]
    exact ⟨rfl, rfl⟩
  · intro cb now hs
    rw [recordSuccess_halfOpen cb now hs]
    exact ⟨rfl, rfl⟩

/-- C2 witness: threshold 3, open-duration 30, failures at instants 1, 2
and 5. -/
theorem C2_breaker_state_machine_witness :
    ((⟨3, 30, CircuitState.closed, 0, 0, 0⟩ : CircuitBreaker).state =
        CircuitState.closed ∧
      (⟨3, 30, CircuitState.closed, 0, 0, 0⟩ : CircuitBreaker).failures = 0 ∧
      0 < (⟨3, 30, CircuitState.closed, 0, 0, 0⟩ : CircuitBreaker).failureThreshold ∧
      ([1, 2, 5] : List Int).length =
        (⟨3, 30, CircuitState.closed, 0, 0, 0⟩ : CircuitBreaker).failureThreshold) ∧
    ((recordFailures ⟨3, 30, CircuitState.closed, 0, 0, 0⟩ [1, 2, 5]).state =
        CircuitState.opened ∧
      (∀ now : Int,
        now - (recordFailures ⟨3, 30, CircuitState.closed, 0, 0, 0⟩
          [1, 2, 5]).lastStateChange <
            (⟨3, 30, CircuitState.closed, 0, 0, 0⟩ : CircuitBreaker).timeout →
        (recordFailures ⟨3, 30, CircuitState.closed, 0, 0, 0⟩ [1, 2, 5]).Allow now =
          (AllowResult.circuitOpen,
            recordFailures ⟨3, 30, CircuitState.closed, 0, 0, 0⟩ [1, 2, 5])) ∧
      (∀ now : Int,
        (⟨3, 30, CircuitState.closed, 0, 0, 0⟩ : CircuitBreaker).timeout ≤
          now - (recordFailures ⟨3, 30, CircuitState.closed, 0, 0, 0⟩
            [1, 2, 5]).lastStateChange →
        ((recordFailures ⟨3, 30, CircuitState.closed, 0, 0, 0⟩
          [1, 2, 5]).Allow now).1 = AllowResult.ok ∧
        ((recordFailures ⟨3, 30, CircuitState.closed, 0, 0, 0⟩
          [1, 2, 5]).Allow now).2.state = CircuitState.halfOpen ∧
        ((recordFailures ⟨3, 30, CircuitState.closed, 0, 0, 0⟩
          [1, 2, 5]).Allow now).2.lastStateChange = now) ∧
      (∀ (cb : CircuitBreaker) (now : Int), cb.state = CircuitState.halfOpen →
        (cb.RecordFailure now).state = CircuitState.opened ∧
        (cb.RecordFailure now).lastStateChange = now) ∧
      (∀ (cb : CircuitBreaker) (now : Int), cb.state = CircuitState.halfOpen →
        (cb.RecordSuccess now).state = CircuitState.closed ∧
        (cb.RecordSuccess now).failures = 0)) :=
  ⟨⟨rfl, rfl, by decide, by decide⟩,
    C2_breaker_state_machine ⟨3, 30, CircuitState.closed, 0, 0, 0⟩ [1, 2, 5]
      rfl rfl (by decide) (by decide)⟩

/-- C10: while the breaker is open, `RecordSuccess` resets the failure
counter to 0 but leaves the state open; the only operations that leave
the open state are an `Allow` whose open-duration check has elapsed
(moving to half-open) and an explicit `Reset` (moving to closed), so any
operation sequence exits the open state only through one of those two
steps. -/
theorem C10_open_only_exits_via_allow_or_reset (cb : CircuitBreaker)
    (h : cb.state = CircuitState.opened) :
    (∀ now : Int, (cb.RecordSuccess now).failures = 0 ∧
      (cb.RecordSuccess now).state = CircuitState.opened) ∧
    (∀ op : BreakerOp, (applyBreakerOp cb op).state ≠ CircuitState.opened →
      (∃ n : Int, op = BreakerOp.allow n ∧ cb.timeout ≤ n - cb.lastStateChange ∧
        (applyBreakerOp cb op).state = CircuitState.halfOpen) ∨
      (∃ n : Int, op = BreakerOp.reset n ∧
        (applyBreakerOp cb op).state = CircuitState.closed)) := by
  constructor
  · intro now
    unfold CircuitBreaker.RecordSuccess
    rw [if_neg (by show ¬cb.state = CircuitState.halfOpen; simp [h])]
    exact ⟨rfl, h⟩
  · intro op hne
    cases op with
    | allow n =>
      by_cases helapsed : cb.timeout ≤ n - cb.lastStateChange
      · left
        refine ⟨n, rfl, helapsed, ?_⟩
        show ((cb.Allow n).2).state = CircuitState.halfOpen
        rw [allow_open_elapsed cb n h helapsed]
      · exfalso
        apply hne
        show ((cb.Allow n).2).state = CircuitState.opened
        rw [allow_open_early cb n h (by omega)]
        exact h
    | recordSuccess n =>
      exfalso
      apply hne
      show (cb.RecordSuccess n).state = CircuitState.opened
      unfold CircuitBreaker.RecordSuccess
      rw [if_neg (by show ¬cb.state = CircuitState.halfOpen; simp [h])]
      exact h
    | recordFailure n =>
      exfalso
      apply hne
      show (cb.RecordFailure n).state = CircuitState.opened
      unfold CircuitBreaker.RecordFailure
      rw [if_neg (by show ¬cb.state = CircuitState.halfOpen; simp [h])]
      by_cases hthr : cb.failureThreshold ≤ cb.failures + 1
      · rw [if_pos hthr]
      · rw [if_neg hthr]
        exact h
    | reset n =>
      right
      exact ⟨n, rfl, rfl⟩

/-- C10 witness: an open breaker with threshold 3 and open-duration 30,
last transition at instant 0. -/
theorem C10_open_only_exits_via_allow_or_reset_witness :
    (⟨3, 30, CircuitState.opened, 3, 0, 0⟩ : CircuitBreaker).state =
      CircuitState.opened ∧
    ((∀ now : Int,
        ((⟨3, 30, CircuitState.opened, 3, 0, 0⟩ : CircuitBreaker).RecordSuccess
          now).failures = 0 ∧
        ((⟨3, 30, CircuitState.opened, 3, 0, 0⟩ : CircuitBreaker).RecordSuccess
          now).state = CircuitState.opened) ∧
      (∀ op : BreakerOp,
        (applyBreakerOp ⟨3, 30, CircuitState.opened, 3, 0, 0⟩ op).state ≠
          CircuitState.opened →
        (∃ n : Int, op = BreakerOp.allow n ∧
          (⟨3, 30, CircuitState.opened, 3, 0, 0⟩ : CircuitBreaker).timeout ≤
            n - (⟨3, 30, CircuitState.opened, 3, 0, 0⟩ :
              CircuitBreaker).lastStateChange ∧
          (applyBreakerOp ⟨3, 30, CircuitState.opened, 3, 0, 0⟩ op).state =
            CircuitState.halfOpen) ∨
        (∃ n : Int, op = BreakerOp.reset n ∧
          (applyBreakerOp ⟨3, 30, CircuitState.opened, 3, 0, 0⟩ op).state =
            CircuitState.closed))) :=
  ⟨rfl, C10_open_only_exits_via_allow_or_reset
    ⟨3, 30, CircuitState.opened, 3, 0, 0⟩ rfl⟩
/-! ## Retry executor lemmas -/

lemma withRetryLoop_unfold (fn : Nat → HttpResult) (attempt fuel : Nat) :
    withRetryLoop fn attempt fuel =
      if shouldRetry (fn attempt) = false then
        match fn attempt with
        | HttpResult.resp s => ⟨some s, false, attempt + 1⟩
        | HttpResult.networkErr => ⟨none, false, attempt + 1⟩
      else
        match fuel with
        | 0 =>
          match fn attempt with
          | HttpResult.networkErr => ⟨none, true, attempt + 1⟩
          | HttpResult.resp s => ⟨some s, false, attempt + 1⟩
        | fuel' + 1 => withRetryLoop fn (attempt + 1) fuel' := by
  cases fuel <;> rfl

lemma withRetryLoop_skip (fn : Nat → HttpResult) (k : Nat) :
    ∀ attempt fuel : Nat, k ≤ fuel →
      (∀ i, i < k → shouldRetry (fn (attempt + i)) = true) →
      withRetryLoop fn attempt fuel = withRetryLoop fn (attempt + k) (fuel - k) := by
  induction k with
  | zero =>
    intro attempt fuel _ _
    rw [Nat.add_zero, Nat.sub_zero]
  | succ k ih =>
    intro attempt fuel hk hret
    obtain ⟨fuel', rfl⟩ : ∃ fuel', fuel = fuel' + 1 := ⟨fuel - 1, by omega⟩
    have h0 : shouldRetry (fn attempt) = true := by simpa using hret 0 (by omega)
    rw [withRetryLoop_unfold, h0]
    simp only [Bool.true_eq_false, if_false]
    have ha : attempt + 1 + k = attempt + (k + 1) := by omega
    have hb : fuel' - k = fuel' + 1 - (k + 1) := by omega
    rw [ih (attempt + 1) fuel' (by omega) (fun i hi => by
      have h := hret (i + 1) (by omega)
      rwa [show attempt + (i + 1) = attempt + 1 + i by omega] at h), ha, hb]

lemma withRetryLoop_stop (fn : Nat → HttpResult) (attempt fuel : Nat) (s : Nat)
    (hfn : fn attempt = HttpResult.resp s)
    (hterm : shouldRetry (HttpResult.resp s) = false) :
    withRetryLoop fn attempt fuel = ⟨some s, false, attempt + 1⟩ := by
  rw [withRetryLoop_unfold, hfn, hterm]
  simp

lemma withRetryLoop_exhaust (fn : Nat → HttpResult) (attempt : Nat)
    (hret : shouldRetry (fn attempt) = true) :
    withRetryLoop fn attempt 0 =
      match fn attempt with
      | HttpResult.networkErr => ⟨none, true, attempt + 1⟩
      | HttpResult.resp s => ⟨some s, false, attempt + 1⟩ := by
  rw [withRetryLoop_unfold, hret]
  simp
/-- C3: retry-count behaviour of the executor.  (a) If the delivery
function yields a retryable outcome on exactly its first `R` invocations
and a terminal response on invocation `R`, then with `maxRetries ≥ R`
the executor returns that response after exactly `R + 1` invocations.
(b) If every invocation yields a retryable outcome, the executor
performs exactly `maxRetries + 1` invocations and returns the last
outcome (the last response as-is, or the wrapped error for a final
transport failure).  (c) If the first invocation yields a non-retryable
response, the executor performs exactly one invocation and returns it.
Retryable means a transport failure or a status in
{429, 500, 502, 503, 504}. -/
theorem C3_executor_invocation_counts (fn : Nat → HttpResult) (maxRetries : Nat) :
    (∀ R s, R ≤ maxRetries →
      (∀ i, i < R → shouldRetry (fn i) = true) →
      fn R = HttpResult.resp s → shouldRetry (HttpResult.resp s) = false →
      withRetry maxRetries fn = ⟨some s, false, R + 1⟩) ∧
    ((∀ i, shouldRetry (fn i) = true) →
      (withRetry maxRetries fn).calls = maxRetries + 1 ∧
      (∀ s, fn maxRetries = HttpResult.resp s →
        withRetry maxRetries fn = ⟨some s, false, maxRetries + 1⟩) ∧
      (fn maxRetries = HttpResult.networkErr →
        withRetry maxRetries fn = ⟨none, true, maxRetries + 1⟩)) ∧
    (∀ s, fn 0 = HttpResult.resp s → shouldRetry (HttpResult.resp s) = false →
      withRetry maxRetries fn = ⟨some s, false, 1⟩) := by
  refine ⟨?_, ?_, ?_⟩
  · intro R s hR hret hfn hterm
    unfold withRetry
    rw [withRetryLoop_skip fn R 0 maxRetries hR
      (fun i hi => by simpa using hret i hi)]
    simpa using withRetryLoop_stop fn R (maxRetries - R) s hfn hterm
  · intro hret
    unfold withRetry
    rw [withRetryLoop_skip fn maxRetries 0 maxRetries le_rfl
      (fun i hi => by simpa using hret i)]
    simp only [Nat.sub_self, Nat.zero_add]
    rw [withRetryLoop_exhaust fn maxRetries (hret maxRetries)]
    refine ⟨?_, ?_, ?_⟩
    · cases hcase : fn maxRetries <;> simp [hcase]
    · intro s hcase; simp [hcase]
    · intro hcase; simp [hcase]
  · intro s hfn hterm
    unfold withRetry
    simpa using withRetryLoop_stop fn 0 maxRetries s hfn hterm

/-- C3 witness: 503 on the first two invocations, then 200, with
`maxRetries = 3`: success returned after exactly 3 invocations. -/
theorem C3_executor_invocation_counts_witness :
    ((2 : Nat) ≤ 3 ∧
      (∀ i, i < 2 →
        shouldRetry ((fun i => if i < 2 then HttpResult.resp 503
          else HttpResult.resp 200) i) = true) ∧
      (fun i => if i < 2 then HttpResult.resp 503 else HttpResult.resp 200) 2 =
        HttpResult.resp 200 ∧
      shouldRetry (HttpResult.resp 200) = false) ∧
    withRetry 3 (fun i => if i < 2 then HttpResult.resp 503
      else HttpResult.resp 200) = ⟨some 200, false, 3⟩ :=
  ⟨⟨by decide, by decide, by decide, by decide⟩,
    (C3_executor_invocation_counts
      (fun i => if i < 2 then HttpResult.resp 503 else HttpResult.resp 200)
      3).1 2 200 (by decide) (by decide) (by decide) (by decide)⟩

/-- C6: exhaustion policy.  When all `maxRetries + 1` attempts yield a
retryable outcome, the executor returns the last attempt's response
unchanged (status inspectable, no synthesized error) whenever the last
attempt obtained a response, and returns the wrapped
"max retries exceeded" error exactly when the last attempt was a
transport failure with no response. -/
theorem C6_exhaustion_returns_last_outcome (fn : Nat → HttpResult)
    (maxRetries : Nat) (hret : ∀ i, i ≤ maxRetries → shouldRetry (fn i) = true) :
    (∀ s, fn maxRetries = HttpResult.resp s →
      withRetry maxRetries fn = ⟨some s, false, maxRetries + 1⟩) ∧
    (fn maxRetries = HttpResult.networkErr →
      withRetry maxRetries fn = ⟨none, true, maxRetries + 1⟩) ∧
    ((withRetry maxRetries fn).wrappedErr = true ↔
      fn maxRetries = HttpResult.networkErr) := by
  have hrun : withRetry maxRetries fn =
      match fn maxRetries with
      | HttpResult.networkErr => ⟨none, true, maxRetries + 1⟩
      | HttpResult.resp s => ⟨some s, false, maxRetries + 1⟩ := by
    unfold withRetry
    rw [withRetryLoop_skip fn maxRetries 0 maxRetries le_rfl
      (fun i hi => by simpa using hret i (by omega))]
    simp only [Nat.sub_self, Nat.zero_add]
    exact withRetryLoop_exhaust fn maxRetries (hret maxRetries le_rfl)
  refine ⟨?_, ?_, ?_⟩
  · intro s hcase; rw [hrun, hcase]
  · intro hcase; rw [hrun, hcase]
  · rw [hrun]
    cases hcase : fn maxRetries <;> simp [hcase]

/-- C6 witness: every attempt yields 429 with `maxRetries = 2`: the
final 429 response is returned as-is and no wrapped error is
produced. -/
theorem C6_exhaustion_returns_last_outcome_witness :
    (∀ i, i ≤ 2 → shouldRetry ((fun _ => HttpResult.resp 429) i) = true) ∧
    ((∀ s, (fun _ => HttpResult.resp 429) 2 = HttpResult.resp s →
        withRetry 2 (fun _ => HttpResult.resp 429) = ⟨some s, false, 3⟩) ∧
      ((fun _ => HttpResult.resp 429) 2 = HttpResult.networkErr →
        withRetry 2 (fun _ => HttpResult.resp 429) = ⟨none, true, 3⟩) ∧
      ((withRetry 2 (fun _ => HttpResult.resp 429)).wrappedErr = true ↔
        (fun _ => HttpResult.resp 429) 2 = HttpResult.networkErr)) :=
  ⟨fun _ _ => rfl,
    C6_exhaustion_returns_last_outcome (fun _ => HttpResult.resp 429) 2
      (fun _ _ => rfl)⟩
/-! ## Backoff bounds -/

lemma calculateBackoff_eq (attempt : Nat) (minB maxB j : ℚ) :
    calculateBackoff attempt minB maxB j =
      (if minB * 2 ^ attempt > maxB then maxB else minB * 2 ^ attempt) +
        j * (1 / 4) *
          (if minB * 2 ^ attempt > maxB then maxB else minB * 2 ^ attempt) :=
  rfl

/-- C4: for attempt `a` and a configuration with `0 < min ≤ max`, the
computed backoff lies in `[min * 2 ^ a, min * 2 ^ a * 1.25]` whenever the
uncapped exponential value does not exceed `max`, and for every attempt
it never exceeds `max * 1.25`.  The jitter draw (`rand.Float64()`) is
any rational in `[0, 1]`. -/
theorem C4_backoff_bounds (attempt : Nat) (minBackoff maxBackoff jitterDraw : ℚ)
    (hmin : 0 < minBackoff) (hminmax : minBackoff ≤ maxBackoff)
    (hj0 : 0 ≤ jitterDraw) (hj1 : jitterDraw ≤ 1) :
    (minBackoff * 2 ^ attempt ≤ maxBackoff →
      minBackoff * 2 ^ attempt ≤
        calculateBackoff attempt minBackoff maxBackoff jitterDraw ∧
      calculateBackoff attempt minBackoff maxBackoff jitterDraw ≤
        minBackoff * 2 ^ attempt * (5 / 4)) ∧
    calculateBackoff attempt minBackoff maxBackoff jitterDraw ≤
      maxBackoff * (5 / 4) := by
  rw [calculateBackoff_eq]
  have hb0pos : 0 < minBackoff * 2 ^ attempt := by positivity
  by_cases hcap : minBackoff * 2 ^ attempt > maxBackoff
  · rw [if_pos hcap]
    constructor
    · intro hle
      exact absurd hle (not_le.mpr hcap)
    · nlinarith
  · rw [if_neg hcap]
    push_neg at hcap
    refine ⟨fun _ => ⟨?_, ?_⟩, ?_⟩
    · nlinarith
    · nlinarith
    · nlinarith

/-- C4 witness: attempt 1, min 1, max 60, jitter draw 1/2 (computed
backoff 9/4). -/
theorem C4_backoff_bounds_witness :
    ((0 : ℚ) < 1 ∧ (1 : ℚ) ≤ 60 ∧ (0 : ℚ) ≤ 1 / 2 ∧ (1 / 2 : ℚ) ≤ 1) ∧
    (((1 : ℚ) * 2 ^ (1 : Nat) ≤ 60 →
      (1 : ℚ) * 2 ^ (1 : Nat) ≤ calculateBackoff 1 1 60 (1 / 2) ∧
      calculateBackoff 1 1 60 (1 / 2) ≤ (1 : ℚ) * 2 ^ (1 : Nat) * (5 / 4)) ∧
     calculateBackoff 1 1 60 (1 / 2) ≤ (60 : ℚ) * (5 / 4)) :=
  ⟨⟨by norm_num, by norm_num, by norm_num, by norm_num⟩,
    C4_backoff_bounds 1 1 60 (1 / 2) (by norm_num) (by norm_num)
      (by norm_num) (by norm_num)⟩
/-! ## Batcher record-conservation invariant -/

lemma coe_flatten_erase {b : List Nat} :
    ∀ {ls : List (List Nat)}, b ∈ ls →
      (((ls.erase b).flatten : List Nat) : Multiset Nat) + (b : Multiset Nat) =
        ((ls.flatten : List Nat) : Multiset Nat) := by
  intro ls
  induction ls with
  | nil => intro hb; cases hb
  | cons a ls ih =>
    intro hb
    by_cases hab : a = b
    · subst hab
      rw [List.erase_cons_head, List.flatten_cons, ← Multiset.coe_add]
      exact add_comm _ _
    · have hb' : b ∈ ls := by
        rcases List.mem_cons.mp hb with h | h
        · exact absurd h.symm hab
        · exact h
      rw [List.erase_cons_tail (by simpa using hab), List.flatten_cons,
        List.flatten_cons, ← Multiset.coe_add, ← Multiset.coe_add, add_assoc,
        ih hb']

lemma batcherStep_add (b : Batcher) (l : Nat) (hs : b.stopped = false) :
    batcherStep b (BatcherOp.add l) =
      { b with
          logs := b.logs ++ [l]
          flushPending :=
            if (b.logs ++ [l]).length ≥ b.maxSize then true else b.flushPending
          submitted := b.submitted ++ [l] } := by
  show (b.Add l).1 = _
  unfold Batcher.Add
  rw [hs]
  rfl

lemma batcherStep_add_stopped (b : Batcher) (l : Nat) (hs : b.stopped = true) :
    batcherStep b (BatcherOp.add l) = b := by
  show (b.Add l).1 = b
  unfold Batcher.Add
  rw [hs]
  rfl

lemma batcherStep_detach (b : Batcher) (hl : b.logs ≠ []) :
    batcherStep b BatcherOp.detach =
      { b with logs := [], inflight := b.inflight ++ [b.logs] } := by
  unfold batcherStep
  rw [if_neg hl]

lemma batcherStep_detach_empty (b : Batcher) (hl : b.logs = []) :
    batcherStep b BatcherOp.detach = b := by
  unfold batcherStep
  rw [if_pos hl]

lemma batcherStep_deliver (b : Batcher) (batch : List Nat)
    (hin : batch ∈ b.inflight) :
    batcherStep b (BatcherOp.deliver batch) =
      { b with
          inflight := b.inflight.erase batch
          delivered := b.delivered ++ [batch] } := by
  show (if batch ∈ b.inflight then
      { b with
          inflight := b.inflight.erase batch
          delivered := b.delivered ++ [batch] }
    else b) = _
  rw [if_pos hin]

lemma batcherStep_deliver_absent (b : Batcher) (batch : List Nat)
    (hin : batch ∉ b.inflight) :
    batcherStep b (BatcherOp.deliver batch) = b := by
  show (if batch ∈ b.inflight then
      { b with
          inflight := b.inflight.erase batch
          delivered := b.delivered ++ [batch] }
    else b) = b
  rw [if_neg hin]

/-- The conservation invariant: every record accepted by `Add` is in the
buffer, in a detached in-flight batch, or already handed to the flush
function — and nothing else is. -/
def BatcherInv (b : Batcher) : Prop :=
  batchContents b = (b.submitted : Multiset Nat)

lemma batcherStep_inv (b : Batcher) (op : BatcherOp) (h : BatcherInv b) :
    BatcherInv (batcherStep b op) := by
  unfold BatcherInv batchContents at h ⊢
  cases op with
  | add l =>
    by_cases hs : b.stopped = true
    · rw [batcherStep_add_stopped b l hs]
      exact h
    · have hs' : b.stopped = false := by simpa using hs
      rw [batcherStep_add b l hs']
      show ((b.logs ++ [l] : List Nat) : Multiset Nat) + ↑b.inflight.flatten +
          ↑b.delivered.flatten = ↑(b.submitted ++ [l])
      rw [← Multiset.coe_add, ← Multiset.coe_add, ← h]
      abel
  | detach =>
    by_cases hl : b.logs = []
    · rw [batcherStep_detach_empty b hl]
      exact h
    · rw [batcherStep_detach b hl]
      show (([] : List Nat) : Multiset Nat) +
          ↑(b.inflight ++ [b.logs]).flatten + ↑b.delivered.flatten =
          ↑b.submitted
      rw [List.flatten_append, List.flatten_cons, List.flatten_nil,
        List.append_nil, ← Multiset.coe_add, Multiset.coe_nil, ← h]
      abel
  | deliver batch =>
    by_cases hin : batch ∈ b.inflight
    · rw [batcherStep_deliver b batch hin]
      show (b.logs : Multiset Nat) + ↑(b.inflight.erase batch).flatten +
          ↑(b.delivered ++ [batch]).flatten = ↑b.submitted
      rw [List.flatten_append, List.flatten_cons, List.flatten_nil,
        List.append_nil, ← Multiset.coe_add, ← h, ← coe_flatten_erase hin]
      abel
    · rw [batcherStep_deliver_absent b batch hin]
      exact h
  | consumeSignal => exact h
  | stop => exact h

lemma batcherRun_inv (ops : List BatcherOp) :
    ∀ b : Batcher, BatcherInv b → BatcherInv (batcherRun b ops) := by
  induction ops with
  | nil => intro b h; exact h
  | cons op ops ih =>
    intro b h
    exact ih (batcherStep b op) (batcherStep_inv b op h)

lemma initBatcher_inv (maxSize : Nat) : BatcherInv (initBatcher maxSize) := rfl
/-- C1: record conservation.  For any interleaving of producer `Add`
sections, flush detach sections, out-of-lock batch hand-offs, signal
consumptions and the stop flag — any concurrent schedule permitted by
the batcher's mutex — once the buffer is empty and no detached batch is
still in flight (the state `Close` leaves behind after its final flush),
the records handed to the flush function across all flushes are exactly
the accepted records: equal as multisets, equal in number, with equal
per-record multiplicities, and — when the accepted records are distinct —
each accepted record appears in exactly one flushed batch. -/
theorem C1_every_record_flushed_exactly_once (maxSize : Nat)
    (ops : List BatcherOp)
    (hbuf : (batcherRun (initBatcher maxSize) ops).logs = [])
    (hinf : (batcherRun (initBatcher maxSize) ops).inflight = []) :
    ((flushedLogs (batcherRun (initBatcher maxSize) ops) : List Nat) :
        Multiset Nat) =
      ((batcherRun (initBatcher maxSize) ops).submitted : Multiset Nat) ∧
    (flushedLogs (batcherRun (initBatcher maxSize) ops)).length =
      (batcherRun (initBatcher maxSize) ops).submitted.length ∧
    (∀ l : Nat, (flushedLogs (batcherRun (initBatcher maxSize) ops)).count l =
      (batcherRun (initBatcher maxSize) ops).submitted.count l) ∧
    ((batcherRun (initBatcher maxSize) ops).submitted.Nodup →
      ∀ l ∈ (batcherRun (initBatcher maxSize) ops).submitted,
        (flushedLogs (batcherRun (initBatcher maxSize) ops)).count l = 1) := by
  have hinv := batcherRun_inv ops (initBatcher maxSize) (initBatcher_inv maxSize)
  unfold BatcherInv batchContents at hinv
  rw [hbuf, hinf] at hinv
  simp only [List.flatten_nil, Multiset.coe_nil, zero_add] at hinv
  have hmain : ((flushedLogs (batcherRun (initBatcher maxSize) ops) : List Nat) :
      Multiset Nat) =
      ((batcherRun (initBatcher maxSize) ops).submitted : Multiset Nat) := hinv
  have hcount : ∀ l : Nat,
      (flushedLogs (batcherRun (initBatcher maxSize) ops)).count l =
      (batcherRun (initBatcher maxSize) ops).submitted.count l := by
    intro l
    have := congrArg (Multiset.count l) hmain
    simpa [Multiset.coe_count] using this
  refine ⟨hmain, ?_, hcount, ?_⟩
  · have := congrArg Multiset.card hmain
    simpa [Multiset.coe_card] using this
  · intro hnodup l hl
    rw [hcount l]
    exact List.count_eq_one_of_mem hnodup hl

/-- C1 witness: threshold 2; records 1 and 2 trigger a size-based flush,
record 3 is drained by the final stop-flush; every record is handed to
the flush function exactly once. -/
theorem C1_every_record_flushed_exactly_once_witness :
    ((batcherRun (initBatcher 2)
        [BatcherOp.add 1, BatcherOp.add 2, BatcherOp.consumeSignal,
          BatcherOp.detach, BatcherOp.deliver [1, 2], BatcherOp.add 3,
          BatcherOp.stop, BatcherOp.detach, BatcherOp.deliver [3]]).logs = [] ∧
      (batcherRun (initBatcher 2)
        [BatcherOp.add 1, BatcherOp.add 2, BatcherOp.consumeSignal,
          BatcherOp.detach, BatcherOp.deliver [1, 2], BatcherOp.add 3,
          BatcherOp.stop, BatcherOp.detach, BatcherOp.deliver [3]]).inflight =
        []) ∧
    (((flushedLogs (batcherRun (initBatcher 2)
        [BatcherOp.add 1, BatcherOp.add 2, BatcherOp.consumeSignal,
          BatcherOp.detach, BatcherOp.deliver [1, 2], BatcherOp.add 3,
          BatcherOp.stop, BatcherOp.detach, BatcherOp.deliver [3]]) :
        List Nat) : Multiset Nat) =
      ((batcherRun (initBatcher 2)
        [BatcherOp.add 1, BatcherOp.add 2, BatcherOp.consumeSignal,
          BatcherOp.detach, BatcherOp.deliver [1, 2], BatcherOp.add 3,
          BatcherOp.stop, BatcherOp.detach, BatcherOp.deliver [3]]).submitted :
        Multiset Nat) ∧
    (flushedLogs (batcherRun (initBatcher 2)
        [BatcherOp.add 1, BatcherOp.add 2, BatcherOp.consumeSignal,
          BatcherOp.detach, BatcherOp.deliver [1, 2], BatcherOp.add 3,
          BatcherOp.stop, BatcherOp.detach, BatcherOp.deliver [3]])).length =
      (batcherRun (initBatcher 2)
        [BatcherOp.add 1, BatcherOp.add 2, BatcherOp.consumeSignal,
          BatcherOp.detach, BatcherOp.deliver [1, 2], BatcherOp.add 3,
          BatcherOp.stop, BatcherOp.detach,
          BatcherOp.deliver [3]]).submitted.length ∧
    (∀ l : Nat, (flushedLogs (batcherRun (initBatcher 2)
        [BatcherOp.add 1, BatcherOp.add 2, BatcherOp.consumeSignal,
          BatcherOp.detach, BatcherOp.deliver [1, 2], BatcherOp.add 3,
          BatcherOp.stop, BatcherOp.detach, BatcherOp.deliver [3]])).count l =
      (batcherRun (initBatcher 2)
        [BatcherOp.add 1, BatcherOp.add 2, BatcherOp.consumeSignal,
          BatcherOp.detach, BatcherOp.deliver [1, 2], BatcherOp.add 3,
          BatcherOp.stop, BatcherOp.detach,
          BatcherOp.deliver [3]]).submitted.count l) ∧
    ((batcherRun (initBatcher 2)
        [BatcherOp.add 1, BatcherOp.add 2, BatcherOp.consumeSignal,
          BatcherOp.detach, BatcherOp.deliver [1, 2], BatcherOp.add 3,
          BatcherOp.stop, BatcherOp.detach,
          BatcherOp.deliver [3]]).submitted.Nodup →
      ∀ l ∈ (batcherRun (initBatcher 2)
        [BatcherOp.add 1, BatcherOp.add 2, BatcherOp.consumeSignal,
          BatcherOp.detach, BatcherOp.deliver [1, 2], BatcherOp.add 3,
          BatcherOp.stop, BatcherOp.detach,
          BatcherOp.deliver [3]]).submitted,
        (flushedLogs (batcherRun (initBatcher 2)
          [BatcherOp.add 1, BatcherOp.add 2, BatcherOp.consumeSignal,
            BatcherOp.detach, BatcherOp.deliver [1, 2], BatcherOp.add 3,
            BatcherOp.stop, BatcherOp.detach,
            BatcherOp.deliver [3]])).count l = 1)) :=
  ⟨⟨by decide, by decide⟩,
    C1_every_record_flushed_exactly_once 2
      [BatcherOp.add 1, BatcherOp.add 2, BatcherOp.consumeSignal,
        BatcherOp.detach, BatcherOp.deliver [1, 2], BatcherOp.add 3,
        BatcherOp.stop, BatcherOp.detach, BatcherOp.deliver [3]]
      (by decide) (by decide)⟩
/-- C7: flushing an empty accumulator is a successful no-op — the flush
function is not invoked and the state is unchanged. -/
theorem C7_empty_flush_noop (f : List Nat → Bool) (b : Batcher)
    (h : b.logs = []) :
    Batcher.Flush f b = ⟨b, none, true⟩ := by
  unfold Batcher.Flush
  rw [if_pos h]

/-- C7 witness: a fresh batcher and a flush function that always
errors. -/
theorem C7_empty_flush_noop_witness :
    (initBatcher 3).logs = [] ∧
    Batcher.Flush (fun _ => false) (initBatcher 3) =
      ⟨initBatcher 3, none, true⟩ :=
  ⟨rfl, C7_empty_flush_noop (fun _ => false) (initBatcher 3) rfl⟩

/-! ## No record ever reappears after its batch was handed off -/

lemma batcherRun_no_readd (l : Nat) (ops : List BatcherOp) :
    ∀ t : Batcher, l ∉ t.logs → l ∉ t.inflight.flatten →
      (∀ op ∈ ops, op ≠ BatcherOp.add l) →
      l ∉ (batcherRun t ops).logs ∧
      l ∉ (batcherRun t ops).inflight.flatten ∧
      (batcherRun t ops).delivered.flatten.count l =
        t.delivered.flatten.count l := by
  induction ops with
  | nil => intro t h1 h2 _; exact ⟨h1, h2, rfl⟩
  | cons op ops ih =>
    intro t h1 h2 hops
    have hop : op ≠ BatcherOp.add l := hops op (List.mem_cons_self op ops)
    have hrest : ∀ o ∈ ops, o ≠ BatcherOp.add l :=
      fun o ho => hops o (List.mem_cons_of_mem op ho)
    have hstep : l ∉ (batcherStep t op).logs ∧
        l ∉ (batcherStep t op).inflight.flatten ∧
        (batcherStep t op).delivered.flatten.count l =
          t.delivered.flatten.count l := by
      cases op with
      | add m =>
        have hml : m ≠ l := fun he => hop (by rw [he])
        by_cases hs : t.stopped = true
        · rw [batcherStep_add_stopped t m hs]
          exact ⟨h1, h2, rfl⟩
        · rw [batcherStep_add t m (by simpa using hs)]
          refine ⟨?_, h2, rfl⟩
          intro hmem
          rcases List.mem_append.mp hmem with hmem | hmem
          · exact h1 hmem
          · exact hml (List.mem_singleton.mp hmem).symm
      | detach =>
        by_cases hl : t.logs = []
        · rw [batcherStep_detach_empty t hl]
          exact ⟨h1, h2, rfl⟩
        · rw [batcherStep_detach t hl]
          refine ⟨by simp, ?_, rfl⟩
          show l ∉ (t.inflight ++ [t.logs]).flatten
          rw [List.flatten_append, List.flatten_cons, List.flatten_nil,
            List.append_nil]
          intro hmem
          rcases List.mem_append.mp hmem with hmem | hmem
          · exact h2 hmem
          · exact h1 hmem
      | deliver batch =>
        by_cases hin : batch ∈ t.inflight
        · have hlb : l ∉ batch := fun hmem =>
            h2 (List.mem_flatten.mpr ⟨batch, hin, hmem⟩)
          rw [batcherStep_deliver t batch hin]
          refine ⟨h1, ?_, ?_⟩
          · show l ∉ (t.inflight.erase batch).flatten
            intro hmem
            rcases List.mem_flatten.mp hmem with ⟨s, hsmem, hls⟩
            exact h2 (List.mem_flatten.mpr
              ⟨s, List.mem_of_mem_erase hsmem, hls⟩)
          · show (t.delivered ++ [batch]).flatten.count l =
              t.delivered.flatten.count l
            rw [List.flatten_append, List.flatten_cons, List.flatten_nil,
              List.append_nil, List.count_append,
              List.count_eq_zero.mpr hlb, Nat.add_zero]
        · rw [batcherStep_deliver_absent t batch hin]
          exact ⟨h1, h2, rfl⟩
      | consumeSignal => exact ⟨h1, h2, rfl⟩
      | stop => exact ⟨h1, h2, rfl⟩
    obtain ⟨a1, a2, a3⟩ := ih (batcherStep t op) hstep.1 hstep.2.1 hrest
    exact ⟨a1, a2, a3.trans hstep.2.2⟩

/-- C8: a flush of a non-empty buffer hands the whole buffer to the
flush function and resets the buffer, and the state update does not
depend on the flush function's result — a failed flush (CircuitOpen,
retries exhausted, any error) discards the batch rather than restoring
it.  Moreover a record of the discarded batch that has no other pending
copy and is never re-added is never part of any batch handed to the
flush function afterwards. -/
theorem C8_failed_flush_discards_records (f : List Nat → Bool) (b : Batcher)
    (hne : b.logs ≠ []) :
    (Batcher.Flush f b).invoked = some b.logs ∧
    (Batcher.Flush f b).ok = f b.logs ∧
    (Batcher.Flush f b).state =
      { b with logs := [], delivered := b.delivered ++ [b.logs] } ∧
    (Batcher.Flush f b).state.logs = [] ∧
    (∀ (ops : List BatcherOp) (l : Nat), l ∈ b.logs →
      l ∉ b.inflight.flatten →
      (∀ op ∈ ops, op ≠ BatcherOp.add l) →
      (batcherRun (Batcher.Flush f b).state ops).delivered.flatten.count l =
        (Batcher.Flush f b).state.delivered.flatten.count l) := by
  have hflush : Batcher.Flush f b =
      ⟨{ b with logs := [], delivered := b.delivered ++ [b.logs] },
        some b.logs, f b.logs⟩ := by
    unfold Batcher.Flush
    rw [if_neg hne]
  refine ⟨by rw [hflush], by rw [hflush], by rw [hflush], by rw [hflush], ?_⟩
  intro ops l _ hinf hops
  rw [hflush]
  exact (batcherRun_no_readd l ops
    { b with logs := [], delivered := b.delivered ++ [b.logs] }
    (by simp) hinf hops).2.2

/-- C8 witness: buffer `[7]`, failing flush function; record 7 is handed
off once and, over a subsequent schedule that adds and flushes record 8,
its count among handed-off records stays 1. -/
theorem C8_failed_flush_discards_records_witness :
    ((initBatcher 2 : Batcher).logs ++ [7] ≠ [] ∧
      ({ initBatcher 2 with logs := [7] } : Batcher).logs ≠ []) ∧
    ((Batcher.Flush (fun _ => false) { initBatcher 2 with logs := [7] }).invoked =
        some ({ initBatcher 2 with logs := [7] } : Batcher).logs ∧
      (Batcher.Flush (fun _ => false) { initBatcher 2 with logs := [7] }).ok =
        (fun _ => false) ({ initBatcher 2 with logs := [7] } : Batcher).logs ∧
      (Batcher.Flush (fun _ => false) { initBatcher 2 with logs := [7] }).state =
        { ({ initBatcher 2 with logs := [7] } : Batcher) with
            logs := []
            delivered := ({ initBatcher 2 with logs := [7] } : Batcher).delivered ++
              [({ initBatcher 2 with logs := [7] } : Batcher).logs] } ∧
      (Batcher.Flush (fun _ => false)
        { initBatcher 2 with logs := [7] }).state.logs = [] ∧
      (∀ (ops : List BatcherOp) (l : Nat),
        l ∈ ({ initBatcher 2 with logs := [7] } : Batcher).logs →
        l ∉ ({ initBatcher 2 with logs := [7] } : Batcher).inflight.flatten →
        (∀ op ∈ ops, op ≠ BatcherOp.add l) →
        (batcherRun (Batcher.Flush (fun _ => false)
          { initBatcher 2 with logs := [7] }).state ops).delivered.flatten.count
            l =
          (Batcher.Flush (fun _ => false)
            { initBatcher 2 with logs := [7] }).state.delivered.flatten.count
            l)) :=
  ⟨⟨by decide, by decide⟩,
    C8_failed_flush_discards_records (fun _ => false)
      { initBatcher 2 with logs := [7] } (by decide)⟩

/-- C9: on a non-stopped batcher, `Add` always succeeds without blocking
and appends the record whatever the current buffer length; reaching
`maxSize` only raises the (idempotent) flush signal; consequently a run
of `k` consecutive `Add` steps grows the buffer by `k` past any
`maxSize`, and a single later `Flush` hands over that entire buffer. -/
theorem C9_add_unbounded_buffer (b : Batcher) (l : Nat)
    (h : b.stopped = false) :
    (b.Add l).2 = true ∧
    (b.Add l).1.logs = b.logs ++ [l] ∧
    (b.Add l).1.inflight = b.inflight ∧
    (b.Add l).1.delivered = b.delivered ∧
    (b.Add l).1.flushPending =
      (if (b.logs ++ [l]).length ≥ b.maxSize then true else b.flushPending) ∧
    (∀ (ls : List Nat) (t : Batcher), t.stopped = false →
      (batcherRun t (ls.map BatcherOp.add)).logs = t.logs ++ ls) ∧
    (∀ f : List Nat → Bool, b.logs ≠ [] →
      (Batcher.Flush f b).invoked = some b.logs) := by
  have hstep : batcherStep b (BatcherOp.add l) =
      { b with
          logs := b.logs ++ [l]
          flushPending :=
            if (b.logs ++ [l]).length ≥ b.maxSize then true else b.flushPending
          submitted := b.submitted ++ [l] } := batcherStep_add b l h
  have hadds : ∀ (ls : List Nat) (t : Batcher), t.stopped = false →
      (batcherRun t (ls.map BatcherOp.add)).logs = t.logs ++ ls ∧
      (batcherRun t (ls.map BatcherOp.add)).stopped = false := by
    intro ls
    induction ls with
    | nil => intro t ht; exact ⟨(List.append_nil t.logs).symm, ht⟩
    | cons m ls ih =>
      intro t ht
      have hstep' := batcherStep_add t m ht
      have hnext := ih (batcherStep t (BatcherOp.add m)) (by rw [hstep']; exact ht)
      constructor
      · show (batcherRun (batcherStep t (BatcherOp.add m))
          (ls.map BatcherOp.add)).logs = t.logs ++ (m :: ls)
        rw [hnext.1, hstep']
        show t.logs ++ [m] ++ ls = t.logs ++ (m :: ls)
        rw [List.append_assoc]
        rfl
      · exact hnext.2
  refine ⟨?_, ?_, ?_, ?_, ?_, fun ls t ht => (hadds ls t ht).1, ?_⟩
  · show ((b.Add l).2 = true)
    unfold Batcher.Add
    rw [h]
    rfl
  · rw [show (b.Add l).1 = batcherStep b (BatcherOp.add l) from rfl, hstep]
  · rw [show (b.Add l).1 = batcherStep b (BatcherOp.add l) from rfl, hstep]
  · rw [show (b.Add l).1 = batcherStep b (BatcherOp.add l) from rfl, hstep]
  · rw [show (b.Add l).1 = batcherStep b (BatcherOp.add l) from rfl, hstep]
  · intro f hne
    unfold Batcher.Flush
    rw [if_neg hne]

/-- C9 witness: maxSize 2, buffer already holding 4 records; a fifth
`Add` still succeeds, and one flush hands over all five records. -/
theorem C9_add_unbounded_buffer_witness :
    ({ initBatcher 2 with logs := [1, 2, 3, 4] } : Batcher).stopped = false ∧
    ((({ initBatcher 2 with logs := [1, 2, 3, 4] } : Batcher).Add 5).2 = true ∧
      ((({ initBatcher 2 with logs := [1, 2, 3, 4] } : Batcher).Add 5).1.logs =
        ({ initBatcher 2 with logs := [1, 2, 3, 4] } : Batcher).logs ++ [5]) ∧
      ((({ initBatcher 2 with logs := [1, 2, 3, 4] } : Batcher).Add 5).1.inflight =
        ({ initBatcher 2 with logs := [1, 2, 3, 4] } : Batcher).inflight) ∧
      ((({ initBatcher 2 with logs := [1, 2, 3, 4] } : Batcher).Add 5).1.delivered =
        ({ initBatcher 2 with logs := [1, 2, 3, 4] } : Batcher).delivered) ∧
      ((({ initBatcher 2 with logs := [1, 2, 3, 4] } : Batcher).Add 5).1.flushPending =
        (if (({ initBatcher 2 with logs := [1, 2, 3, 4] } : Batcher).logs ++
            [5]).length ≥
            ({ initBatcher 2 with logs := [1, 2, 3, 4] } : Batcher).maxSize then
          true
        else
          ({ initBatcher 2 with logs := [1, 2, 3, 4] } :
            Batcher).flushPending)) ∧
      (∀ (ls : List Nat) (t : Batcher), t.stopped = false →
        (batcherRun t (ls.map BatcherOp.add)).logs = t.logs ++ ls) ∧
      (∀ f : List Nat → Bool,
        ({ initBatcher 2 with logs := [1, 2, 3, 4] } : Batcher).logs ≠ [] →
        (Batcher.Flush f
          ({ initBatcher 2 with logs := [1, 2, 3, 4] } : Batcher)).invoked =
          some ({ initBatcher 2 with logs := [1, 2, 3, 4] } : Batcher).logs)) :=
  ⟨rfl, C9_add_unbounded_buffer { initBatcher 2 with logs := [1, 2, 3, 4] } 5 rfl⟩
/-! ## sendBatch: gate, recording and result mapping -/

lemma allow_snd_of_circuitOpen (cb : CircuitBreaker) (now : Int)
    (h : (cb.Allow now).1 = AllowResult.circuitOpen) :
    (cb.Allow now).2 = cb := by
  unfold CircuitBreaker.Allow at h ⊢
  by_cases hs : cb.state = CircuitState.opened
  · rw [if_pos hs] at h ⊢
    by_cases he : now - cb.lastStateChange ≥ cb.timeout
    · rw [if_pos he] at h
      cases h
    · rw [if_neg he]
  · rw [if_neg hs] at h
    cases h

lemma withRetryLoop_calls_ge (fn : Nat → HttpResult) :
    ∀ fuel attempt : Nat, attempt + 1 ≤ (withRetryLoop fn attempt fuel).calls := by
  intro fuel
  induction fuel with
  | zero =>
    intro attempt
    rw [withRetryLoop_unfold]
    by_cases hr : shouldRetry (fn attempt) = false
    · rw [if_pos hr]
      cases hfn : fn attempt <;> simp
    · rw [if_neg hr]
      cases hfn : fn attempt <;> simp
  | succ fuel ih =>
    intro attempt
    rw [withRetryLoop_unfold]
    by_cases hr : shouldRetry (fn attempt) = false
    · rw [if_pos hr]
      cases hfn : fn attempt <;> simp
    · rw [if_neg hr]
      show attempt + 1 ≤ (withRetryLoop fn (attempt + 1) fuel).calls
      have := ih (attempt + 1)
      omega

/-- C5 counterexample: breaker closed with 2 accumulated failures and
threshold 3; one delivery attempt (maxRetries 0) yields status 429.
`sendBatch` returns the failure `httpError 429` to its caller, yet the
breaker records a success — the failure counter is reset to 0 — instead
of the failure the claim requires (which would set it to 3). -/
theorem C5_counterexample_records_success_on_failure :
    (sendBatch ⟨3, 30, CircuitState.closed, 2, 0, 0⟩ 100 0
        (fun _ => HttpResult.resp 429) [1]).result = SendResult.httpError 429 ∧
    (sendBatch ⟨3, 30, CircuitState.closed, 2, 0, 0⟩ 100 0
        (fun _ => HttpResult.resp 429) [1]).result ≠ SendResult.ok ∧
    (sendBatch ⟨3, 30, CircuitState.closed, 2, 0, 0⟩ 100 0
        (fun _ => HttpResult.resp 429) [1]).breaker =
      CircuitBreaker.RecordSuccess
        ((CircuitBreaker.Allow ⟨3, 30, CircuitState.closed, 2, 0, 0⟩ 100).2)
        100 ∧
    (sendBatch ⟨3, 30, CircuitState.closed, 2, 0, 0⟩ 100 0
        (fun _ => HttpResult.resp 429) [1]).breaker ≠
      CircuitBreaker.RecordFailure
        ((CircuitBreaker.Allow ⟨3, 30, CircuitState.closed, 2, 0, 0⟩ 100).2)
        100 ∧
    (sendBatch ⟨3, 30, CircuitState.closed, 2, 0, 0⟩ 100 0
        (fun _ => HttpResult.resp 429) [1]).breaker.failures = 0 := by
  refine ⟨?_, ?_, ?_, ?_, ?_⟩ <;> decide

/-- C5 (amended): for a batch that passes batch validation, the flush
function consults `circuitBreaker.Allow` and, when the gate fails,
returns `CircuitOpen` with no delivery attempt and no recorded breaker
outcome; otherwise it runs the retrying executor (at least one delivery
attempt) and records exactly one breaker outcome — `RecordFailure` when
the executor returned a non-nil error or a response with status ≥ 500
and `RecordSuccess` otherwise — before returning the executor's result
mapped to the flush error (wrapped send failure, non-2xx `HTTPError`,
or nil). -/
theorem C5_amended_flush_gate_and_recording (cb : CircuitBreaker) (now : Int)
    (maxRetries : Nat) (fn : Nat → HttpResult) (logs : List Nat)
    (hv : validateBatchOk logs = true) :
    ((cb.Allow now).1 = AllowResult.circuitOpen →
      sendBatch cb now maxRetries fn logs =
        ⟨SendResult.circuitOpen, cb, 0⟩) ∧
    ((cb.Allow now).1 = AllowResult.ok →
      (sendBatch cb now maxRetries fn logs).breaker =
        (if (withRetry maxRetries fn).wrappedErr ||
            (match (withRetry maxRetries fn).resp with
              | some s => decide (s ≥ 500)
              | none => false) then
          ((cb.Allow now).2).RecordFailure now
        else
          ((cb.Allow now).2).RecordSuccess now) ∧
      (sendBatch cb now maxRetries fn logs).deliveryCalls =
        (withRetry maxRetries fn).calls ∧
      1 ≤ (sendBatch cb now maxRetries fn logs).deliveryCalls ∧
      (sendBatch cb now maxRetries fn logs).result =
        (if (withRetry maxRetries fn).wrappedErr then SendResult.sendFailed
         else
           match (withRetry maxRetries fn).resp with
           | some s =>
             if s < 200 ∨ s ≥ 300 then SendResult.httpError s
             else SendResult.ok
           | none => SendResult.sendFailed)) := by
  have hv' : ¬validateBatchOk logs = false := by simp [hv]
  constructor
  · intro hgate
    have hpair : cb.Allow now = (AllowResult.circuitOpen, cb) :=
      Prod.ext hgate (allow_snd_of_circuitOpen cb now hgate)
    unfold sendBatch
    rw [if_neg hv', hpair]
  · intro hgate
    have hpair : cb.Allow now = (AllowResult.ok, (cb.Allow now).2) :=
      Prod.ext hgate rfl
    unfold sendBatch
    rw [if_neg hv', hpair]
    have hcalls : 1 ≤ (withRetry maxRetries fn).calls :=
      withRetryLoop_calls_ge fn maxRetries 0
    by_cases hw : (withRetry maxRetries fn).wrappedErr = true
    · simp only [hw]
      exact ⟨rfl, rfl, hcalls, rfl⟩
    · have hw' : (withRetry maxRetries fn).wrappedErr = false := by
        simpa using hw
      simp only [hw']
      cases hresp : (withRetry maxRetries fn).resp with
      | none => exact ⟨rfl, rfl, hcalls, rfl⟩
      | some s =>
        by_cases hcode : s < 200 ∨ s ≥ 300
        · simp only [hresp, if_pos hcode]
          exact ⟨rfl, rfl, hcalls, rfl⟩
        · simp only [hresp, if_neg hcode]
          exact ⟨rfl, rfl, hcalls, rfl⟩

/-- C5 (amended) witness: closed breaker, one-record batch, single
delivery attempt returning 200. -/
theorem C5_amended_flush_gate_and_recording_witness :
    validateBatchOk [1] = true ∧
    (((CircuitBreaker.Allow ⟨3, 30, CircuitState.closed, 0, 0, 0⟩ 0).1 =
        AllowResult.circuitOpen →
      sendBatch ⟨3, 30, CircuitState.closed, 0, 0, 0⟩ 0 0
          (fun _ => HttpResult.resp 200) [1] =
        ⟨SendResult.circuitOpen, ⟨3, 30, CircuitState.closed, 0, 0, 0⟩, 0⟩) ∧
    ((CircuitBreaker.Allow ⟨3, 30, CircuitState.closed, 0, 0, 0⟩ 0).1 =
        AllowResult.ok →
      (sendBatch ⟨3, 30, CircuitState.closed, 0, 0, 0⟩ 0 0
          (fun _ => HttpResult.resp 200) [1]).breaker =
        (if (withRetry 0 (fun _ => HttpResult.resp 200)).wrappedErr ||
            (match (withRetry 0 (fun _ => HttpResult.resp 200)).resp with
              | some s => decide (s ≥ 500)
              | none => false) then
          ((CircuitBreaker.Allow ⟨3, 30, CircuitState.closed, 0, 0, 0⟩
            0).2).RecordFailure 0
        else
          ((CircuitBreaker.Allow ⟨3, 30, CircuitState.closed, 0, 0, 0⟩
            0).2).RecordSuccess 0) ∧
      (sendBatch ⟨3, 30, CircuitState.closed, 0, 0, 0⟩ 0 0
          (fun _ => HttpResult.resp 200) [1]).deliveryCalls =
        (withRetry 0 (fun _ => HttpResult.resp 200)).calls ∧
      1 ≤ (sendBatch ⟨3, 30, CircuitState.closed, 0, 0, 0⟩ 0 0
          (fun _ => HttpResult.resp 200) [1]).deliveryCalls ∧
      (sendBatch ⟨3, 30, CircuitState.closed, 0, 0, 0⟩ 0 0
          (fun _ => HttpResult.resp 200) [1]).result =
        (if (withRetry 0 (fun _ => HttpResult.resp 200)).wrappedErr then
          SendResult.sendFailed
         else
           match (withRetry 0 (fun _ => HttpResult.resp 200)).resp with
           | some s =>
             if s < 200 ∨ s ≥ 300 then SendResult.httpError s
             else SendResult.ok
           | none => SendResult.sendFailed))) :=
  ⟨by decide,
    C5_amended_flush_gate_and_recording ⟨3, 30, CircuitState.closed, 0, 0, 0⟩ 0 0
      (fun _ => HttpResult.resp 200) [1] (by decide)⟩
